import Mathlib

/-!
Shallow embedding of the chat server (src/unnamed/part_000, the final variant:
the Socket.IO handlers registered on lines 67-222) together with theorems
checking the claims of the specification against it.

Conventions of the embedding:
* The durable `users` and `direct_messages` tables are lists of rows; the
  `direct_messages` list is kept in insertion order (SERIAL id order).
* The in-memory `globalMessages` array and the `onlineUsers` JS `Map` are a
  list and an insertion-ordered association list (`Map.set` replaces in place,
  `Map.keys()` returns insertion order).
* Timestamps (`Date.now()`, `NOW()`, `TIMESTAMPTZ`) are integer milliseconds
  (`Int`), so `new Date(ts) > oneWeekAgo` is exactly `now - oneWeekMs < ts`.
* The socket-local `currentUserId` variable (null until `user_connect`
  succeeds) is an `Option UserId`; JS `===` between it and a payload field is
  `Option` equality, so `null === null` is `true`.
* Each handler is a pure function from the server state (plus the session
  bindings and the payload) to the new state, the list of emitted events in
  emission order, and, for request/response handlers, the callback result.
* `pool.query` calls that can fail are modelled in `change_nickname` by a
  failure schedule `qfail : Nat → Bool` telling whether the n-th handler
  query throws; a thrown query performs no mutation and the catch block runs.
-/

namespace ChatApp

abbrev UserId := String
abbrev Nickname := String

/-- Row of the durable `users` table (part_000 lines 33-37):
`user_id TEXT PRIMARY KEY, nickname TEXT UNIQUE NOT NULL,
change_timestamps TIMESTAMPTZ[], last_seen TIMESTAMPTZ`. -/
structure UserRow where
  user_id : UserId
  nickname : Nickname
  change_timestamps : List Int
  last_seen : Int
deriving Repr, DecidableEq

/-- Row of the durable `direct_messages` table (part_000 lines 40-44). -/
structure DMRow where
  id : Nat
  sender_id : UserId
  receiver_id : UserId
  message : String
  msgType : String
  timestamp : Int
deriving Repr, DecidableEq

/-- An entry of the in-memory `globalMessages` array (part_000 lines 151-154):
`id` is `Date.now()`, `senderNickname` is the presence-registry nickname
snapshotted at send time. -/
structure GlobalMsg where
  id : Int
  senderId : UserId
  senderNickname : Nickname
  message : String
  msgType : String
  timestamp : Int
deriving Repr, DecidableEq

/-- Value of the `onlineUsers` map (part_000 line 28):
`userId -> (nickname, socketId)`. -/
structure PresenceInfo where
  nickname : Nickname
  socketId : String
deriving Repr, DecidableEq

/-- The whole server state the handlers read and write: the two durable
tables, the in-memory global feed and the presence map. -/
structure ServerState where
  users : List UserRow
  dms : List DMRow
  globalMessages : List GlobalMsg
  onlineUsers : List (UserId × PresenceInfo)
deriving Repr, DecidableEq

/-- JS `Map.set`: replace in place when the key exists (keeping insertion
order), otherwise append. -/
def mapSet (m : List (UserId × PresenceInfo)) (k : UserId) (v : PresenceInfo) :
    List (UserId × PresenceInfo) :=
  if m.any (fun p => p.1 == k) then
    m.map (fun p => if p.1 == k then (k, v) else p)
  else m ++ [(k, v)]

/-- JS `Map.get`. -/
def mapGet (m : List (UserId × PresenceInfo)) (k : UserId) : Option PresenceInfo :=
  (m.find? (fun p => p.1 == k)).map (fun p => p.2)

/-- JS `Map.keys()` in insertion order (`Array.from(onlineUsers.keys())`). -/
def mapKeys (m : List (UserId × PresenceInfo)) : List UserId :=
  m.map (fun p => p.1)

/-- Row shape of the `load_dms` join query (part_000 line 176): the SELECT
list keeps only the message columns and the two live-joined nicknames. -/
structure DMView where
  id : Nat
  message : String
  msgType : String
  timestamp : Int
  sender_nickname : Nickname
  receiver_nickname : Nickname
deriving Repr, DecidableEq

/-- Events the handlers emit (socket.emit / io.emit payloads). -/
inductive Event where
  | onlineUsersUpdate (ids : List UserId)
  | loadGlobalMessages (msgs : List GlobalMsg)
  | forceNicknameUpdate (nickname : Nickname)
  | nicknameChanged (oldNickname newNickname : Nickname)
  | newGlobalMessage (msg : GlobalMsg)
  | globalMessageDeleted (messageId : Int)
  | loadedDms (targetNickname : Nickname) (messages : List DMView)
deriving Repr, DecidableEq

/-- The distinct failure callbacks the handlers produce; each constructor
stands for one literal message string of the source. -/
inductive CbErr where
  /-- change_nickname line 121: the session has no bound identity. -/
  | notAuthenticated
  /-- user_connect line 87 / change_nickname line 133: nickname in use. -/
  | nicknameTaken
  /-- change_nickname line 129: at most 2 changes per week. -/
  | rateLimited
  /-- The catch blocks: a store query threw. -/
  | storeFailure
deriving Repr, DecidableEq

/-- Result passed to a request/response callback. -/
inductive CbResult where
  | ok (user : UserRow)
  | err (e : CbErr)
deriving Repr, DecidableEq

/-- Outcome of a fire-and-forget handler: new state and emitted events. -/
structure HandlerResult where
  state : ServerState
  events : List Event
deriving Repr, DecidableEq

/-- Outcome of a request/response handler. -/
structure CbHandlerResult where
  state : ServerState
  events : List Event
  cb : CbResult
deriving Repr, DecidableEq

/-- Outcome of `user_connect`: additionally the value the handler assigns to
the socket-local `currentUserId` (`none` = left untouched). -/
structure ConnectResult where
  state : ServerState
  events : List Event
  cb : CbResult
  bound : Option UserId
deriving Repr, DecidableEq

/-- `7 * 24 * 60 * 60 * 1000` (change_nickname line 126). -/
def oneWeekMs : Int := 7 * 24 * 60 * 60 * 1000

/-- Handler `user_connect` (part_000 lines 70-101). Existing user: reconcile
the requested nickname (keep the stored one and emit `force_nickname_update`
when the requested one differs and is held by a different user), then
`UPDATE users SET nickname = $1, last_seen = NOW()`. New user: fail with
`nicknameTaken` when any user holds the nickname, else INSERT. On success the
session binds `userId`, presence is set, the id roster is broadcast and the
global feed is replayed to the socket. -/
def user_connect (s : ServerState) (socketId : String) (now : Int)
    (userId : UserId) (nickname : Nickname) : ConnectResult :=
  match s.users.find? (fun u => u.user_id == userId) with
  | some u =>
    let conflict := u.nickname != nickname &&
      s.users.any (fun v => v.nickname == nickname && v.user_id != userId)
    let nick := if conflict then u.nickname else nickname
    let forced : List Event := if conflict then [.forceNicknameUpdate u.nickname] else []
    let users := s.users.map (fun v =>
      if v.user_id == userId then { v with nickname := nick, last_seen := now } else v)
    let online := mapSet s.onlineUsers userId ⟨nick, socketId⟩
    { state := { s with users := users, onlineUsers := online }
      events := forced ++ [.onlineUsersUpdate (mapKeys online),
        .loadGlobalMessages s.globalMessages]
      cb := .ok { u with nickname := nick }
      bound := some userId }
  | none =>
    if s.users.any (fun v => v.nickname == nickname) then
      { state := s, events := [], cb := .err .nicknameTaken, bound := none }
    else
      let newUser : UserRow := ⟨userId, nickname, [], now⟩
      let online := mapSet s.onlineUsers userId ⟨nickname, socketId⟩
      { state := { s with users := s.users ++ [newUser], onlineUsers := online }
        events := [.onlineUsersUpdate (mapKeys online),
          .loadGlobalMessages s.globalMessages]
        cb := .ok newUser
        bound := some userId }

/-- Handler `get_dm_partners` (part_000 lines 103-118): callback receives the
DISTINCT nicknames of the users whose id appears as the other side of a
direct message with the user bound to the session. Anonymous sessions get `[]`. -/
def get_dm_partners (s : ServerState) (currentUserId : Option UserId) : List Nickname :=
  match currentUserId with
  | none => []
  | some uid =>
    let partnerIds :=
      (s.dms.filter (fun dm => dm.sender_id == uid)).map (fun dm => dm.receiver_id) ++
      (s.dms.filter (fun dm => dm.receiver_id == uid)).map (fun dm => dm.sender_id)
    ((s.users.filter (fun u => partnerIds.contains u.user_id)).map
      (fun u => u.nickname)).dedup

/-- Handler `change_nickname` of the final variant (part_000 lines 120-145).
The three `pool.query` calls are numbered 0 (SELECT the user row), 1 (SELECT
the uniqueness check) and 2 (the UPDATE); `qfail n = true` means the n-th
query throws, reaching the catch block. A missing user row makes
`userResult.rows[0].nickname` throw, likewise caught. -/
def change_nickname (s : ServerState) (currentUserId : Option UserId)
    (socketId : String) (now : Int) (newNickname : Nickname)
    (qfail : Nat → Bool) : CbHandlerResult :=
  match currentUserId with
  | none => { state := s, events := [], cb := .err .notAuthenticated }
  | some uid =>
    if qfail 0 then { state := s, events := [], cb := .err .storeFailure }
    else
      match s.users.find? (fun u => u.user_id == uid) with
      | none => { state := s, events := [], cb := .err .storeFailure }
      | some u =>
        let recentChanges :=
          u.change_timestamps.filter (fun ts => decide (now - oneWeekMs < ts))
        if 2 ≤ recentChanges.length then
          { state := s, events := [], cb := .err .rateLimited }
        else if qfail 1 then { state := s, events := [], cb := .err .storeFailure }
        else if s.users.any (fun v => v.nickname == newNickname && v.user_id != uid) then
          { state := s, events := [], cb := .err .nicknameTaken }
        else if qfail 2 then { state := s, events := [], cb := .err .storeFailure }
        else
          let users := s.users.map (fun v =>
            if v.user_id == uid then
              { v with nickname := newNickname
                       change_timestamps := v.change_timestamps ++ [now] }
            else v)
          let updatedUser : UserRow :=
            { u with nickname := newNickname
                     change_timestamps := u.change_timestamps ++ [now] }
          let online := mapSet s.onlineUsers uid ⟨newNickname, socketId⟩
          { state := { s with users := users, onlineUsers := online }
            events := [.nicknameChanged u.nickname newNickname,
              .onlineUsersUpdate (mapKeys online)]
            cb := .ok updatedUser }

/-- Handler `global_message` (part_000 lines 147-158): drop the event unless
the session is identified and present; build the message with `id` and
`timestamp` from the clock and the nickname snapshotted from the presence
registry; push; `shift()` the head when the length passed 100; broadcast. -/
def global_message (s : ServerState) (currentUserId : Option UserId)
    (now : Int) (message : String) (msgType : Option String) : HandlerResult :=
  match currentUserId with
  | none => { state := s, events := [] }
  | some uid =>
    match mapGet s.onlineUsers uid with
    | none => { state := s, events := [] }
    | some senderInfo =>
      let messageData : GlobalMsg :=
        ⟨now, uid, senderInfo.nickname, message, msgType.getD "text", now⟩
      let pushed := s.globalMessages ++ [messageData]
      let bounded := if 100 < pushed.length then pushed.tail else pushed
      { state := { s with globalMessages := bounded }
        events := [.newGlobalMessage messageData] }

/-- Handler `delete_global_message` (part_000 lines 160-168): the guard is
`currentUserId === senderId` against the client-supplied payload field; when
it passes, every feed entry whose `id` equals `messageId` is filtered out and
a deletion is broadcast when the feed shrank. -/
def delete_global_message (s : ServerState) (currentUserId : Option UserId)
    (messageId : Int) (senderId : Option UserId) : HandlerResult :=
  if currentUserId = senderId then
    let remaining := s.globalMessages.filter (fun msg => msg.id != messageId)
    if remaining.length < s.globalMessages.length then
      { state := { s with globalMessages := remaining }
        events := [.globalMessageDeleted messageId] }
    else
      { state := { s with globalMessages := remaining }, events := [] }
  else { state := s, events := [] }

/-- The inner JOIN of the `load_dms` query (part_000 line 176): a row is
produced only when both participant ids resolve in `users`, and the nicknames
are read live from the joined `users` rows. -/
def dmJoin (users : List UserRow) (dm : DMRow) : Option DMView :=
  match users.find? (fun u => u.user_id == dm.sender_id),
      users.find? (fun u => u.user_id == dm.receiver_id) with
  | some su, some ru =>
    some ⟨dm.id, dm.message, dm.msgType, dm.timestamp, su.nickname, ru.nickname⟩
  | _, _ => none

/-- The single `load_dms` SQL query (part_000 line 176): the WHERE clause
`(sender_id = $1 AND receiver_id = $2) OR (sender_id = $2 AND receiver_id =
$1)`, the join against `users` on both sides, and `ORDER BY timestamp`
ascending as one stable sort of the one result set. -/
def threadQuery (s : ServerState) (a b : UserId) : List DMView :=
  ((s.dms.filter (fun dm =>
      (dm.sender_id == a && dm.receiver_id == b) ||
      (dm.sender_id == b && dm.receiver_id == a))).filterMap
    (dmJoin s.users)).insertionSort (fun x y => x.timestamp ≤ y.timestamp)

/-- Handler `load_dms` (part_000 lines 170-179): anonymous sessions are a
no-op; an unknown target nickname answers with an empty thread; otherwise the
socket gets the `threadQuery` rows for the bound user and the target. -/
def load_dms (s : ServerState) (currentUserId : Option UserId)
    (targetNickname : Nickname) : List Event :=
  match currentUserId with
  | none => []
  | some uid =>
    match s.users.find? (fun u => u.nickname == targetNickname) with
    | none => [.loadedDms targetNickname []]
    | some target => [.loadedDms targetNickname (threadQuery s uid target.user_id)]


set_option maxRecDepth 8000

/-! ## Helper lemmas and concrete states used by the claim theorems -/

/-- Concrete server state for evaluating the handlers: two identified users,
one global message sent by "u1". -/
def demoState : ServerState :=
  { users := [⟨ "u1", "alice", [], 0⟩, ⟨ "u2", "bob", [], 0⟩]
    dms := []
    globalMessages := [⟨ 5, "u1", "alice", "hi", "text", 5⟩]
    onlineUsers := [("u1", ⟨ "alice", "sockA"⟩), ("u2", ⟨ "bob", "sockB"⟩)] }

/-- Like `demoState` but with one stored direct message from "u1" to "u2". -/
def dmState : ServerState :=
  { users := [⟨ "u1", "alice", [], 0⟩, ⟨ "u2", "bob", [], 0⟩]
    dms := [⟨ 1, "u1", "u2", "hey", "text", 3⟩]
    globalMessages := [⟨ 5, "u1", "alice", "hi", "text", 5⟩]
    onlineUsers := [("u1", ⟨ "alice", "sockA"⟩), ("u2", ⟨ "bob", "sockB"⟩)] }

/-- State for the rate-limit witness: "u1" already renamed at times 0 and 1. -/
def rateState : ServerState :=
  { users := [⟨ "u1", "alice", [0, 1], 0⟩], dms := [], globalMessages := []
    onlineUsers := [("u1", ⟨ "alice", "sockA"⟩)] }

/-- Fold of `global_message` sends by one identified, present user. -/
def appendGlobals (s : ServerState) (uid : UserId) (msgs : List (Int × String)) :
    ServerState :=
  msgs.foldl (fun st p => (global_message st (some uid) p.1 p.2 none).state) s

/-- Initial state of the 101-append scenario: one connected user, empty feed. -/
def feedScenarioState : ServerState :=
  { users := [⟨ "u1", "alice", [], 0⟩], dms := [], globalMessages := []
    onlineUsers := [("u1", ⟨ "alice", "sockA"⟩)] }

/-- The 101 appends of the scenario, sent at times 0..100. -/
def msgs101 : List (Int × String) := (List.range 101).map (fun i => ((i : Int), ""))

/-- Looking a key up right after `Map.set` yields the stored value. -/
theorem mapGet_mapSet (m : List (UserId × PresenceInfo)) (k : UserId) (v : PresenceInfo) :
    mapGet (mapSet m k v) k = some v := by
  unfold mapGet mapSet
  split
  · next hany =>
    rw [List.find?_map]
    have hpred : ((fun p : UserId × PresenceInfo => p.1 == k) ∘
        (fun p => if p.1 == k then (k, v) else p)) = (fun p => p.1 == k) := by
      funext q
      by_cases hq : q.1 = k
      · simp [hq]
      · simp [hq]
    rw [hpred]
    cases hfind : List.find? (fun p => p.1 == k) m with
    | none =>
      obtain ⟨q, hq, hqk⟩ := List.any_eq_true.mp hany
      exact absurd hqk (List.find?_eq_none.mp hfind q hq)
    | some r =>
      have hr := List.find?_some hfind
      have hr2 : r.1 = k := by simpa using hr
      simp [hr2]
  · next hany =>
    have hnone : List.find? (fun p : UserId × PresenceInfo => p.1 == k) m = none := by
      rw [List.find?_eq_none]
      intro x hx hxk
      exact hany (List.any_eq_true.mpr ⟨x, hx, hxk⟩)
    rw [List.find?_append, hnone]
    simp [List.find?]

/-- Mapping an id-preserving row update commutes with looking the id up. -/
theorem find?_update_user (l : List UserRow) (uid : UserId) (g : UserRow → UserRow)
    (hg : ∀ v, (g v).user_id = v.user_id) :
    (l.map (fun v => if v.user_id == uid then g v else v)).find?
        (fun v => v.user_id == uid) =
      (l.find? (fun v => v.user_id == uid)).map g := by
  rw [List.find?_map]
  have hpred : ((fun v : UserRow => v.user_id == uid) ∘
      (fun v => if v.user_id == uid then g v else v)) = (fun v => v.user_id == uid) := by
    funext q
    by_cases hq : q.user_id = uid
    · simp [hq, hg]
    · simp [hq]
  rw [hpred]
  cases hfind : List.find? (fun v : UserRow => v.user_id == uid) l with
  | none => rfl
  | some r =>
    have hr := List.find?_some hfind
    have hr2 : r.user_id = uid := by simpa using hr
    simp [hr2]

instance : IsTotal DMView (fun x y => x.timestamp ≤ y.timestamp) :=
  ⟨fun x y => Int.le_total x.timestamp y.timestamp⟩

instance : IsTrans DMView (fun x y => x.timestamp ≤ y.timestamp) :=
  ⟨fun _x _y _z hxy hyz => le_trans hxy hyz⟩

/-! ## Claim theorems -/

/-- C1: the claim says `delete_global_message` removes a message only when the
STORED sender of the message equals the requester. The code instead
compares the requester against the client-supplied `senderId` payload field:
here every feed message is stored with sender "u1", yet a session bound to
"u2" deletes it by sending `senderId` "u2", and a deletion broadcast goes
out. This theorem evaluates the handler at that failing input. -/
theorem delete_global_message_trusts_client_sender_field :
    (demoState.globalMessages.all (fun m => m.senderId == "u1")) = true ∧
    (delete_global_message demoState (some "u2") 5 (some "u2")).state.globalMessages = [] ∧
    (delete_global_message demoState (some "u2") 5 (some "u2")).events =
      [Event.globalMessageDeleted 5] := by decide

/-- C2: the Global Feed never holds more than 100 messages. Part one:
`global_message` preserves the bound length 100. Part two: after the 101
appends of the concrete scenario (ids 0..100), the feed has exactly the 100
messages with ids 1..100 in order, so the oldest (id 0) was evicted from the
head and the 101st (id 100) is present. -/
theorem global_feed_capacity_100_fifo :
    (∀ (s : ServerState) (cu : Option UserId) (now : Int) (msg : String)
        (t : Option String), s.globalMessages.length ≤ 100 →
        (global_message s cu now msg t).state.globalMessages.length ≤ 100) ∧
    (((appendGlobals feedScenarioState "u1" msgs101).globalMessages.map GlobalMsg.id =
        ((List.range 101).drop 1).map (fun n => (n : Int))) ∧
      (appendGlobals feedScenarioState "u1" msgs101).globalMessages.length = 100 ∧
      ((appendGlobals feedScenarioState "u1" msgs101).globalMessages.all
        (fun m => m.id != 0)) = true ∧
      ((appendGlobals feedScenarioState "u1" msgs101).globalMessages.any
        (fun m => m.id == 100)) = true) := by
  constructor
  · intro s cu now msg t h
    cases cu with
    | none => simpa [global_message] using h
    | some uid =>
      cases hg : mapGet s.onlineUsers uid with
      | none => simpa [global_message, hg] using h
      | some info =>
        simp only [global_message, hg]
        split
        · simp [List.length_tail, List.length_append]
          omega
        · next hlen =>
          simp only [List.length_append] at hlen ⊢
          omega
  · decide

/-- C3: the claim says every message-bearing handler is a pure no-op for a
session that never identified. True for `global_message`, `change_nickname`,
`load_dms` and `get_dm_partners` (first group of conjuncts), but false for
`delete_global_message`: with `currentUserId` still null, a payload whose
`senderId` is null passes the JS strict-equality guard, so the anonymous
session removes feed message 5 and a deletion broadcast is emitted. -/
theorem delete_global_message_anonymous_null_sender_mutates :
    ((global_message demoState none 9 "x" none).state = demoState ∧
      (change_nickname demoState none "sockC" 9 "neo" (fun _ => false)).state = demoState ∧
      load_dms demoState none "alice" = [] ∧
      get_dm_partners demoState none = []) ∧
    (delete_global_message demoState none 5 none).state.globalMessages = [] ∧
    (delete_global_message demoState none 5 none).events =
      [Event.globalMessageDeleted 5] := by decide

/-- C4: the nickname rate limit with window `oneWeekMs` and limit 2. Given
the stored row of the bound user: (1) the rename fails with `rateLimited`
exactly when at least 2 stored change timestamps are strictly newer than
now minus the window; (2) in particular a third attempt within the window
of the first of two recorded changes fails; (3) an attempt once every
recorded change has left the window succeeds (no other user holding the
nickname), returning the row with the nickname adopted and the current
timestamp appended to `change_timestamps`. -/
theorem change_nickname_rate_limit_window
    (s : ServerState) (uid : UserId) (sock : String) (now : Int)
    (nn : Nickname) (u : UserRow)
    (hfind : s.users.find? (fun v => v.user_id == uid) = some u) :
    (2 ≤ (u.change_timestamps.filter (fun ts => decide (now - oneWeekMs < ts))).length →
      change_nickname s (some uid) sock now nn (fun _ => false) =
        { state := s, events := [], cb := .err .rateLimited }) ∧
    (∀ t1 t2 : Int, u.change_timestamps = [t1, t2] → t1 ≤ t2 → now < t1 + oneWeekMs →
      change_nickname s (some uid) sock now nn (fun _ => false) =
        { state := s, events := [], cb := .err .rateLimited }) ∧
    ((∀ ts ∈ u.change_timestamps, ts ≤ now - oneWeekMs) →
      s.users.any (fun v => v.nickname == nn && v.user_id != uid) = false →
      (change_nickname s (some uid) sock now nn (fun _ => false)).cb =
        .ok { u with nickname := nn
                     change_timestamps := u.change_timestamps ++ [now] }) := by
  refine ⟨fun h2 => ?_, fun t1 t2 hts hle hwin => ?_, fun hold ha => ?_⟩
  · simp [change_nickname, hfind, h2]
  · have h2 : 2 ≤ (u.change_timestamps.filter
        (fun ts => decide (now - oneWeekMs < ts))).length := by
      rw [hts]
      have p1 : now - oneWeekMs < t1 := by omega
      have p2 : now - oneWeekMs < t2 := by omega
      simp [p1, p2]
    simp [change_nickname, hfind, h2]
  · have h2 : (u.change_timestamps.filter
        (fun ts => decide (now - oneWeekMs < ts))).length = 0 := by
      rw [List.length_eq_zero, List.filter_eq_nil_iff]
      intro ts hts
      have := hold ts hts
      simp
      omega
    simp [change_nickname, hfind, h2, ha]

/-- Witness for C4: with changes recorded at times 0 and 1, a third attempt
at time 2 (well within one week of time 0) is refused as rate limited. -/
theorem change_nickname_rate_limit_window_witness :
    change_nickname rateState (some "u1") "sockA" 2 "neo" (fun _ => false) =
      { state := rateState, events := [], cb := .err .rateLimited } :=
  (change_nickname_rate_limit_window rateState "u1" "sockA" 2 "neo"
    ⟨ "u1", "alice", [0, 1], 0⟩ (by decide)).2.1 0 1 (by decide) (by decide) (by decide)

/-- C5: the thread query of `load_dms` is one single consistent query: it is
symmetric in the two participants, its result is sorted by timestamp
ascending, it is a permutation of exactly the join rows of the messages
whose participant pair matches in either direction, and the handler answers
with precisely this query result for the resolved target user. -/
theorem load_dms_single_query_symmetric (s : ServerState) (a b : UserId) :
    threadQuery s a b = threadQuery s b a ∧
    List.Sorted (fun x y : DMView => x.timestamp ≤ y.timestamp) (threadQuery s a b) ∧
    (threadQuery s a b).Perm
      ((s.dms.filter (fun dm =>
          (dm.sender_id == a && dm.receiver_id == b) ||
          (dm.sender_id == b && dm.receiver_id == a))).filterMap (dmJoin s.users)) ∧
    (∀ (uid : UserId) (tn : Nickname) (t : UserRow),
      s.users.find? (fun v => v.nickname == tn) = some t →
      load_dms s (some uid) tn = [Event.loadedDms tn (threadQuery s uid t.user_id)]) := by
  refine ⟨?_, ?_, ?_, ?_⟩
  · unfold threadQuery
    exact congrArg (fun l : List DMRow =>
      (l.filterMap (dmJoin s.users)).insertionSort (fun x y => x.timestamp ≤ y.timestamp))
      (List.filter_congr (fun dm _ => Bool.or_comm _ _))
  · unfold threadQuery
    exact List.sorted_insertionSort _ _
  · unfold threadQuery
    exact List.perm_insertionSort _ _
  · intro uid tn t ht
    simp [load_dms, ht]

/-- C6: after a successful rename of a connected user, the users table and
the presence registry report the same new nickname for that id, and within
the same handler turn the full current id roster is broadcast (the
`onlineUsersUpdate` event carries exactly the keys of the updated presence
map), right after the `nicknameChanged` notification. -/
theorem change_nickname_success_syncs_presence
    (s : ServerState) (uid : UserId) (sock : String) (now : Int) (nn : Nickname)
    (u : UserRow)
    (hfind : s.users.find? (fun v => v.user_id == uid) = some u)
    (hrate : ¬ 2 ≤ (u.change_timestamps.filter
      (fun ts => decide (now - oneWeekMs < ts))).length)
    (htaken : s.users.any (fun v => v.nickname == nn && v.user_id != uid) = false) :
    ((change_nickname s (some uid) sock now nn (fun _ => false)).state.users.find?
        (fun v => v.user_id == uid)).map (fun v => v.nickname) = some nn ∧
    (mapGet (change_nickname s (some uid) sock now nn (fun _ => false)).state.onlineUsers
        uid).map (fun p => p.nickname) = some nn ∧
    (change_nickname s (some uid) sock now nn (fun _ => false)).events =
      [Event.nicknameChanged u.nickname nn,
        Event.onlineUsersUpdate (mapKeys
          (change_nickname s (some uid) sock now nn (fun _ => false)).state.onlineUsers)] := by
  have hred : change_nickname s (some uid) sock now nn (fun _ => false) =
      { state :=
          { s with
            users := s.users.map (fun v =>
              if v.user_id == uid then
                { v with nickname := nn
                         change_timestamps := v.change_timestamps ++ [now] }
              else v)
            onlineUsers := mapSet s.onlineUsers uid ⟨nn, sock⟩ }
        events := [Event.nicknameChanged u.nickname nn,
          Event.onlineUsersUpdate (mapKeys (mapSet s.onlineUsers uid ⟨nn, sock⟩))]
        cb := CbResult.ok
          { u with nickname := nn
                   change_timestamps := u.change_timestamps ++ [now] } } := by
    simp [change_nickname, hfind, hrate, htaken]
  rw [hred]
  refine ⟨?_, ?_, rfl⟩
  · dsimp only
    rw [find?_update_user s.users uid (fun v =>
      { v with nickname := nn
               change_timestamps := v.change_timestamps ++ [now] }) (fun v => rfl), hfind]
    rfl
  · dsimp only
    rw [mapGet_mapSet]
    rfl

/-- Witness for C6: "u1" renames from "alice" to "carol" in `demoState`. -/
theorem change_nickname_success_syncs_presence_witness :
    ((change_nickname demoState (some "u1") "sockA" 50 "carol"
        (fun _ => false)).state.users.find?
        (fun v => v.user_id == "u1")).map (fun v => v.nickname) = some "carol" ∧
    (mapGet (change_nickname demoState (some "u1") "sockA" 50 "carol"
        (fun _ => false)).state.onlineUsers "u1").map (fun p => p.nickname) = some "carol" ∧
    (change_nickname demoState (some "u1") "sockA" 50 "carol" (fun _ => false)).events =
      [Event.nicknameChanged "alice" "carol",
        Event.onlineUsersUpdate (mapKeys
          (change_nickname demoState (some "u1") "sockA" 50 "carol"
            (fun _ => false)).state.onlineUsers)] :=
  change_nickname_success_syncs_presence demoState "u1" "sockA" 50 "carol"
    ⟨ "u1", "alice", [], 0⟩ (by decide) (by decide) (by decide)

/-- C7: the claim says a rename to the current nickname fails with a
NicknameUnchanged error, updating nothing and appending no timestamp. The
final `change_nickname` handler has no such check (only the superseded draft
handler does): renaming "u1" from "alice" to "alice" succeeds, re-writes the
row, appends the current time to `change_timestamps` (consuming a rate-limit
slot) and broadcasts a nickname change from "alice" to "alice". This theorem
evaluates the handler at that input. -/
theorem change_nickname_accepts_unchanged_nickname :
    (change_nickname demoState (some "u1") "sockA" 100 "alice" (fun _ => false)).cb =
      CbResult.ok ⟨ "u1", "alice", [100], 0⟩ ∧
    (change_nickname demoState (some "u1") "sockA" 100 "alice" (fun _ => false)).state.users =
      [⟨ "u1", "alice", [100], 0⟩, ⟨ "u2", "bob", [], 0⟩] ∧
    (change_nickname demoState (some "u1") "sockA" 100 "alice" (fun _ => false)).events =
      [Event.nicknameChanged "alice" "alice", Event.onlineUsersUpdate ["u1", "u2"]] := by
  decide

/-- C8: `user_connect` for an existing user id. When the requested nickname
is already held by a different user (and differs from the stored one), the
rename is rejected silently: the stored nickname is kept in the users table,
the caller is notified through `forceNicknameUpdate`, and the operation
still succeeds, returning the stored nickname and binding the session.
Otherwise the requested nickname is adopted and `last_seen` is updated. -/
theorem user_connect_existing_reconciles
    (s : ServerState) (sock : String) (now : Int) (userId : UserId)
    (nickname : Nickname) (u : UserRow)
    (hfind : s.users.find? (fun v => v.user_id == userId) = some u) :
    ((u.nickname != nickname &&
        s.users.any (fun v => v.nickname == nickname && v.user_id != userId)) = true →
      (user_connect s sock now userId nickname).cb = .ok u ∧
      Event.forceNicknameUpdate u.nickname ∈ (user_connect s sock now userId nickname).events ∧
      (user_connect s sock now userId nickname).state.users.find?
          (fun v => v.user_id == userId) = some { u with last_seen := now } ∧
      (user_connect s sock now userId nickname).bound = some userId) ∧
    ((u.nickname != nickname &&
        s.users.any (fun v => v.nickname == nickname && v.user_id != userId)) = false →
      (user_connect s sock now userId nickname).cb = .ok { u with nickname := nickname } ∧
      (user_connect s sock now userId nickname).state.users.find?
          (fun v => v.user_id == userId) =
        some { u with nickname := nickname, last_seen := now } ∧
      (∀ n, Event.forceNicknameUpdate n ∉ (user_connect s sock now userId nickname).events) ∧
      (user_connect s sock now userId nickname).bound = some userId) := by
  refine ⟨fun hc => ?_, fun hc => ?_⟩
  · refine ⟨?_, ?_, ?_, ?_⟩
    · simp [user_connect, hfind, hc]
    · simp [user_connect, hfind, hc]
    · simp only [user_connect, hfind, hc, if_true]
      rw [find?_update_user s.users userId
        (fun v => { v with nickname := u.nickname, last_seen := now }) (fun v => rfl), hfind]
      rfl
    · simp [user_connect, hfind, hc]
  · refine ⟨?_, ?_, ?_, ?_⟩
    · simp [user_connect, hfind, hc]
    · simp only [user_connect, hfind, hc, Bool.false_eq_true, if_false]
      rw [find?_update_user s.users userId
        (fun v => { v with nickname := nickname, last_seen := now }) (fun v => rfl), hfind]
      rfl
    · intro n
      simp [user_connect, hfind, hc]
    · simp [user_connect, hfind, hc]

/-- Witness for C8: "u1" (stored nickname "alice") reconnects requesting
"bob", which "u2" already holds: the stored nickname is kept. -/
theorem user_connect_existing_reconciles_witness :
    (user_connect demoState "sockA" 10 "u1" "bob").cb = .ok ⟨ "u1", "alice", [], 0⟩ ∧
    Event.forceNicknameUpdate "alice" ∈ (user_connect demoState "sockA" 10 "u1" "bob").events ∧
    (user_connect demoState "sockA" 10 "u1" "bob").state.users.find?
        (fun v => v.user_id == "u1") = some ⟨ "u1", "alice", [], 10⟩ ∧
    (user_connect demoState "sockA" 10 "u1" "bob").bound = some "u1" :=
  (user_connect_existing_reconciles demoState "sockA" 10 "u1" "bob"
    ⟨ "u1", "alice", [], 0⟩ (by decide)).1 (by decide)

/-- C9: whenever `change_nickname` answers the callback with a failure (not
authenticated, rate limited, nickname taken, or any store query throwing,
all covered by the failure schedule), the whole server state — users table,
presence registry, global feed and direct messages — is unchanged and no
event is emitted: the failure is reported only through the callback. -/
theorem change_nickname_failure_is_pure_callback
    (s : ServerState) (cu : Option UserId) (sock : String) (now : Int)
    (nn : Nickname) (qfail : Nat → Bool) (e : CbErr)
    (h : (change_nickname s cu sock now nn qfail).cb = .err e) :
    (change_nickname s cu sock now nn qfail).state = s ∧
    (change_nickname s cu sock now nn qfail).events = [] := by
  cases cu with
  | none => simp [change_nickname]
  | some uid =>
    cases hq0 : qfail 0 with
    | true => simp [change_nickname, hq0]
    | false =>
      cases hf : s.users.find? (fun u => u.user_id == uid) with
      | none => simp [change_nickname, hq0, hf]
      | some u =>
        by_cases h1 :
            2 ≤ (u.change_timestamps.filter (fun ts => decide (now - oneWeekMs < ts))).length
        · simp [change_nickname, hq0, hf, h1]
        · cases hq1 : qfail 1 with
          | true => simp [change_nickname, hq0, hf, h1, hq1]
          | false =>
            cases ha : s.users.any (fun v => v.nickname == nn && v.user_id != uid) with
            | true => simp [change_nickname, hq0, hf, h1, hq1, ha]
            | false =>
              cases hq2 : qfail 2 with
              | true => simp [change_nickname, hq0, hf, h1, hq1, ha, hq2]
              | false =>
                exfalso
                simp [change_nickname, hq0, hf, h1, hq1, ha, hq2] at h

/-- Witness for C9: an unauthenticated rename attempt leaves `demoState`
untouched and emits nothing. -/
theorem change_nickname_failure_is_pure_callback_witness :
    (change_nickname demoState none "sockC" 0 "neo" (fun _ => false)).state = demoState ∧
    (change_nickname demoState none "sockC" 0 "neo" (fun _ => false)).events = [] :=
  change_nickname_failure_is_pure_callback demoState none "sockC" 0 "neo" (fun _ => false)
    CbErr.notAuthenticated (by decide)

/-- C10: DM reads resolve nicknames live while the Global Feed keeps its
send-time snapshot. (1) Every row the `load_dms` join produces carries
exactly the CURRENT nickname of the stored sender and receiver ids. (2)
After a successful rename of a user to `nn`, every join row for a message
that user sent or received shows `nn`. (3) After that rename, the renamed
user appears under `nn` in `get_dm_partners` of any DM counterpart. (4) The
rename leaves `globalMessages` untouched, so feed entries keep the
`senderNickname` snapshotted when they were sent. -/
theorem dm_nicknames_live_join_global_snapshot
    (s : ServerState) (uid : UserId) (sock : String) (now : Int) (nn : Nickname)
    (u : UserRow)
    (hfind : s.users.find? (fun v => v.user_id == uid) = some u)
    (hrate : ¬ 2 ≤ (u.change_timestamps.filter
      (fun ts => decide (now - oneWeekMs < ts))).length)
    (htaken : s.users.any (fun v => v.nickname == nn && v.user_id != uid) = false) :
    (∀ (users : List UserRow) (dm : DMRow) (v : DMView), dmJoin users dm = some v →
      (users.find? (fun w => w.user_id == dm.sender_id)).map (fun w => w.nickname) =
        some v.sender_nickname ∧
      (users.find? (fun w => w.user_id == dm.receiver_id)).map (fun w => w.nickname) =
        some v.receiver_nickname) ∧
    (∀ (dm : DMRow) (v : DMView),
      dmJoin (change_nickname s (some uid) sock now nn (fun _ => false)).state.users dm =
        some v →
      (dm.sender_id = uid → v.sender_nickname = nn) ∧
      (dm.receiver_id = uid → v.receiver_nickname = nn)) ∧
    (∀ w : UserId, (∃ dm ∈ s.dms,
        (dm.sender_id = uid ∧ dm.receiver_id = w) ∨
        (dm.sender_id = w ∧ dm.receiver_id = uid)) →
      nn ∈ get_dm_partners
        (change_nickname s (some uid) sock now nn (fun _ => false)).state (some w)) ∧
    (change_nickname s (some uid) sock now nn (fun _ => false)).state.globalMessages =
      s.globalMessages := by
  have hgen : ∀ (users : List UserRow) (dm : DMRow) (v : DMView), dmJoin users dm = some v →
      (users.find? (fun w => w.user_id == dm.sender_id)).map (fun w => w.nickname) =
        some v.sender_nickname ∧
      (users.find? (fun w => w.user_id == dm.receiver_id)).map (fun w => w.nickname) =
        some v.receiver_nickname := by
    intro users dm v hj
    unfold dmJoin at hj
    cases hsu : users.find? (fun w => w.user_id == dm.sender_id) with
    | none => rw [hsu] at hj; simp at hj
    | some su =>
      cases hru : users.find? (fun w => w.user_id == dm.receiver_id) with
      | none => rw [hsu, hru] at hj; simp at hj
      | some ru =>
        rw [hsu, hru] at hj
        have hv := Option.some.inj hj
        rw [← hv]
        exact ⟨rfl, rfl⟩
  have hred : change_nickname s (some uid) sock now nn (fun _ => false) =
      { state :=
          { s with
            users := s.users.map (fun v =>
              if v.user_id == uid then
                { v with nickname := nn
                         change_timestamps := v.change_timestamps ++ [now] }
              else v)
            onlineUsers := mapSet s.onlineUsers uid ⟨nn, sock⟩ }
        events := [Event.nicknameChanged u.nickname nn,
          Event.onlineUsersUpdate (mapKeys (mapSet s.onlineUsers uid ⟨nn, sock⟩))]
        cb := CbResult.ok
          { u with nickname := nn
                   change_timestamps := u.change_timestamps ++ [now] } } := by
    simp [change_nickname, hfind, hrate, htaken]
  have huid : u.user_id = uid := by
    have := List.find?_some hfind
    simpa using this
  refine ⟨hgen, ?_, ?_, ?_⟩
  · intro dm v hj
    rw [hred] at hj
    dsimp only at hj
    constructor
    · intro hsend
      have h1 := (hgen _ dm v hj).1
      rw [hsend] at h1
      rw [find?_update_user s.users uid (fun v =>
        { v with nickname := nn
                 change_timestamps := v.change_timestamps ++ [now] }) (fun v => rfl),
        hfind] at h1
      exact (Option.some.inj h1).symm
    · intro hrecv
      have h1 := (hgen _ dm v hj).2
      rw [hrecv] at h1
      rw [find?_update_user s.users uid (fun v =>
        { v with nickname := nn
                 change_timestamps := v.change_timestamps ++ [now] }) (fun v => rfl),
        hfind] at h1
      exact (Option.some.inj h1).symm
  · intro w hdm
    obtain ⟨dm, hdmem, hcase⟩ := hdm
    rw [hred]
    dsimp only [get_dm_partners]
    rw [List.mem_dedup]
    have hmemu : u ∈ s.users := List.mem_of_find?_eq_some hfind
    have hgu : (fun v : UserRow =>
        if v.user_id == uid then
          { v with nickname := nn
                   change_timestamps := v.change_timestamps ++ [now] }
        else v) u =
        { u with nickname := nn
                 change_timestamps := u.change_timestamps ++ [now] } := by
      simp [huid]
    have hpartner : uid ∈
        ((s.dms.filter (fun d => d.sender_id == w)).map (fun d => d.receiver_id) ++
          (s.dms.filter (fun d => d.receiver_id == w)).map (fun d => d.sender_id)) := by
      rw [List.mem_append]
      rcases hcase with ⟨hs, hr⟩ | ⟨hs, hr⟩
      · right
        rw [List.mem_map]
        exact ⟨dm, List.mem_filter.mpr ⟨hdmem, by simp [hr]⟩, hs⟩
      · left
        rw [List.mem_map]
        exact ⟨dm, List.mem_filter.mpr ⟨hdmem, by simp [hs]⟩, hr⟩
    rw [List.mem_map]
    refine ⟨{ u with nickname := nn
                     change_timestamps := u.change_timestamps ++ [now] }, ?_, rfl⟩
    rw [List.mem_filter]
    constructor
    · rw [List.mem_map]
      exact ⟨u, hmemu, hgu⟩
    · simp only [huid]
      exact List.elem_eq_true_of_mem hpartner
  · rw [hred]

/-- Witness for C10: after "u1" renames to "carol", the partner listing of
"u2" shows "carol" and the global feed is unchanged. -/
theorem dm_nicknames_live_join_global_snapshot_witness :
    "carol" ∈ get_dm_partners
      (change_nickname dmState (some "u1") "sockA" 50 "carol" (fun _ => false)).state
      (some "u2") ∧
    (change_nickname dmState (some "u1") "sockA" 50 "carol"
        (fun _ => false)).state.globalMessages = dmState.globalMessages :=
  ⟨(dm_nicknames_live_join_global_snapshot dmState "u1" "sockA" 50 "carol"
      ⟨ "u1", "alice", [], 0⟩ (by decide) (by decide) (by decide)).2.2.1 "u2"
      ⟨⟨ 1, "u1", "u2", "hey", "text", 3⟩, by decide, Or.inl ⟨rfl, rfl⟩⟩,
    (dm_nicknames_live_join_global_snapshot dmState "u1" "sockA" 50 "carol"
      ⟨ "u1", "alice", [], 0⟩ (by decide) (by decide) (by decide)).2.2.2⟩

end ChatApp
